import Mathlib

/-!
Verification of the run-lifecycle tracker and its file-backed store
(`storage/file_storage.py`, `storage/thread_manager.py`).

Python dictionaries are embedded as association lists `List (String × β)`
with insertion-order semantics: assignment updates the entry in place when
the key is present and appends otherwise; deletion removes the key.
Timestamps (`datetime.now(timezone.utc)`) are embedded as a `Nat` number of
seconds supplied explicitly to every operation that reads the clock.
Snapshot writes (`FileStorage._save_data`) are counted by a `saveCount`
field of the in-memory state; their on-disk effect is modelled separately
for the persistence claims.
-/

namespace CodexTrack

/-- Read of `d[k]`: value of the first entry whose key is `k`, if any. -/
def lookupK (k : String) : List (String × β) → Option β
  | [] => none
  | (k', v) :: rest => if k' = k then some v else lookupK k rest

/-- Assignment `d[k] = v`: update the entry in place when the key is present,
append a new entry otherwise (Python dict assignment). -/
def setK (k : String) (v : β) : List (String × β) → List (String × β)
  | [] => [(k, v)]
  | (k', v') :: rest => if k' = k then (k, v) :: rest else (k', v') :: setK k v rest

/-- Deletion `del d[k]`: drop every entry whose key is `k`. -/
def eraseK (k : String) (l : List (String × β)) : List (String × β) :=
  l.filter (fun p => p.1 ≠ k)

/-- The keys of an association list, in order. -/
def keysOf (l : List (String × β)) : List String :=
  l.map Prod.fst

/-- A thread record: the value stored at `data["threads"][thread_id]`
(`file_storage.py`, `add_thread` / `add_active_run`). -/
structure ThreadRec where
  status : String
  last_activity : Nat
  assistant_id : Option String
deriving Repr, DecidableEq

/-- An active-run record: the value stored at `data["active_runs"][thread_id]`
(`file_storage.py`, `add_active_run`). -/
structure RunRec where
  run_id : String
  start_time : Nat
deriving Repr, DecidableEq

/-- The document held in `FileStorage.data`: two mappings. -/
structure StoreData where
  threads : List (String × ThreadRec)
  active_runs : List (String × RunRec)
deriving Repr, DecidableEq

/-- In-memory state of a `FileStorage` instance, plus a counter of how many
times `_save_data` has been invoked (each mutating method that persists
calls it exactly once). -/
structure StoreState where
  data : StoreData
  saveCount : Nat
deriving Repr, DecidableEq

/-- The empty document `{"threads": {}, "active_runs": {}}`. -/
def emptyData : StoreData := ⟨[], []⟩

/-- A freshly constructed store with no snapshot file present. -/
def emptyStore : StoreState := ⟨emptyData, 0⟩

/-- In-memory effect of `FileStorage._save_data` (file_storage.py:42-53):
the data is unchanged; we record that one snapshot write happened. -/
def save_data_mem (s : StoreState) : StoreState :=
  { s with saveCount := s.saveCount + 1 }

/-- Embeds `FileStorage.add_thread` (file_storage.py:54-63): if the id is absent,
insert `{"status": "created", "last_activity": now, "assistant_id": None}`
and save; otherwise do nothing. -/
def add_thread (now : Nat) (thread_id : String) (s : StoreState) : StoreState :=
  if (lookupK thread_id s.data.threads).isSome then s
  else
    let newThreads := setK thread_id ⟨"created", now, none⟩ s.data.threads
    save_data_mem { s with data := { s.data with threads := newThreads } }

/-- Embeds `FileStorage.set_thread_status` (file_storage.py:64-72): if the thread
exists, update its `status` and `last_activity` fields and save; otherwise
log a warning and do nothing. -/
def set_thread_status (now : Nat) (thread_id status : String) (s : StoreState) : StoreState :=
  match lookupK thread_id s.data.threads with
  | some td =>
      let newRec : ThreadRec := { td with status := status, last_activity := now }
      let newThreads := setK thread_id newRec s.data.threads
      save_data_mem { s with data := { s.data with threads := newThreads } }
  | none => s

/-- Embeds `FileStorage.get_thread_status` (file_storage.py:73-77). -/
def get_thread_status (thread_id : String) (s : StoreState) : Option String :=
  (lookupK thread_id s.data.threads).map ThreadRec.status

/-- Embeds `FileStorage.add_active_run` (file_storage.py:78-95): upsert the thread
record (status `in_progress`, fresh timestamp, assistant recorded), then
overwrite the active-run entry with the new run id and start time, and save.
The two branches of the source's presence check assign the same three
fields, so both arms produce the same record. -/
def add_active_run (now : Nat) (thread_id run_id assistant_id : String)
    (s : StoreState) : StoreState :=
  let newThreads :=
    match lookupK thread_id s.data.threads with
    | some _ => setK thread_id ⟨"in_progress", now, some assistant_id⟩ s.data.threads
    | none => setK thread_id ⟨"in_progress", now, some assistant_id⟩ s.data.threads
  let newRuns := setK thread_id ⟨run_id, now⟩ s.data.active_runs
  save_data_mem { s with data := { threads := newThreads, active_runs := newRuns } }

/-- Embeds `FileStorage.remove_active_run` (file_storage.py:96-103): if an entry is
present, delete it, save, and return the prior run id; otherwise return
`None` and leave the state untouched. -/
def remove_active_run (thread_id : String) (s : StoreState) : Option String × StoreState :=
  match lookupK thread_id s.data.active_runs with
  | some rr =>
      let newRuns := eraseK thread_id s.data.active_runs
      (some rr.run_id, save_data_mem { s with data := { s.data with active_runs := newRuns } })
  | none => (none, s)

/-- Embeds `FileStorage.get_active_run` (file_storage.py:104-108). -/
def get_active_run (thread_id : String) (s : StoreState) : Option RunRec :=
  lookupK thread_id s.data.active_runs

/-- The age test of `FileStorage.get_inactive_threads` (file_storage.py:116-117):
`(now - last_activity).total_seconds() / 3600 >= hours`, expressed exactly
over the integers. -/
def inactiveAge (now : Nat) (hours : Nat) (td : ThreadRec) : Bool :=
  decide ((hours : Int) * 3600 ≤ (now : Int) - (td.last_activity : Int))

/-- Embeds `FileStorage.get_inactive_threads` (file_storage.py:109-119): iterate the
threads mapping in order, keeping ids that have an active-run entry and whose
`last_activity` is at least `hours` hours old. -/
def get_inactive_threads (now : Nat) (hours : Nat) (s : StoreState) : List String :=
  (s.data.threads.filter
    (fun p => (lookupK p.1 s.data.active_runs).isSome && inactiveAge now hours p.2)).map
    Prod.fst

/-- One iteration of the loop body of `FileStorage.cleanup_inactive_threads`
(file_storage.py:123-127): delete the active-run entry if present, then set
the thread's status (only the `status` field) to `cancelled_inactive`. -/
def cleanupStep (d : StoreData) (thread_id : String) : StoreData :=
  let d1 :=
    if (lookupK thread_id d.active_runs).isSome then
      { d with active_runs := eraseK thread_id d.active_runs }
    else d
  match lookupK thread_id d1.threads with
  | some td =>
      let newRec : ThreadRec := { td with status := "cancelled_inactive" }
      { d1 with threads := setK thread_id newRec d1.threads }
  | none => d1

/-- Embeds `FileStorage.cleanup_inactive_threads` (file_storage.py:120-130): compute
the inactive ids, process each, save once if the list is nonempty, and
return the list. -/
def cleanup_inactive_threads (now : Nat) (hours : Nat) (s : StoreState) :
    List String × StoreState :=
  let inactive := get_inactive_threads now hours s
  let s1 : StoreState := { s with data := inactive.foldl cleanupStep s.data }
  (inactive, if inactive.isEmpty then s1 else save_data_mem s1)

/-- Embeds `FileStorage.periodic_save` (file_storage.py:131-133). -/
def periodic_save (s : StoreState) : StoreState :=
  save_data_mem s

/-- State of a `ThreadManager` (thread_manager.py:15-20): the store, the ids
with a live (not yet finished) background poller task in `background_tasks`,
and the trace of `cancel_run` requests issued to the remote client. -/
structure ManagerState where
  store : StoreState
  tasks : List String
  remoteCancels : List (String × String)
deriving Repr, DecidableEq

/-- Tracking `background_tasks[thread_id] = task` (thread_manager.py:38): dict keys
are unique, so insert the id only if it is not already tracked. -/
def trackTask (thread_id : String) (l : List String) : List String :=
  if thread_id ∈ l then l else l ++ [thread_id]

/-- Store effect of the poller's `asyncio.CancelledError` handler
(thread_manager.py:81-84), which runs to completion when `cancel_thread`
cancels and then awaits a live poller task. -/
def pollerCancelHandler (now : Nat) (thread_id : String) (s : StoreState) : StoreState :=
  (remove_active_run thread_id (set_thread_status now thread_id "cancelled" s)).2

/-- Embeds `ThreadManager.cancel_thread` (thread_manager.py:40-57):
cancel and await a live poller task (running its cancellation handler),
then best-effort cancel the remote run if one is still recorded, then remove
the active-run entry and set the status to `cancelled`. A remote-cancel
failure is swallowed, so it has no state effect beyond the recorded request. -/
def cancel_thread (now : Nat) (thread_id : String) (m : ManagerState) : ManagerState :=
  let m1 :=
    if thread_id ∈ m.tasks then
      { m with store := pollerCancelHandler now thread_id m.store,
               tasks := m.tasks.erase thread_id }
    else m
  let m2 :=
    match get_active_run thread_id m1.store with
    | some rr => { m1 with remoteCancels := m1.remoteCancels ++ [(thread_id, rr.run_id)] }
    | none => m1
  let s3 := (remove_active_run thread_id m2.store).2
  let s4 := set_thread_status now thread_id "cancelled" s3
  { m2 with store := s4 }

/-- Embeds `ThreadManager.run_thread` (thread_manager.py:26-39): auto-register an
unknown thread, cancel any previously tracked run, record the run returned
by the remote client (`run_id` is its id), mark the thread `in_progress`,
and track the new poller task. -/
def run_thread (now : Nat) (thread_id assistant_id run_id : String)
    (m : ManagerState) : ManagerState :=
  let m1 :=
    if (get_thread_status thread_id m.store).isSome then m
    else { m with store := add_thread now thread_id m.store }
  let m2 := cancel_thread now thread_id m1
  let s3 := add_active_run now thread_id run_id assistant_id m2.store
  let s4 := set_thread_status now thread_id "in_progress" s3
  { m2 with store := s4, tasks := trackTask thread_id m2.tasks }

/-- Embeds `ThreadManager.cleanup_inactive_threads` (thread_manager.py:89-93):
query the store for inactive ids, then run the full cancellation path on
each, and return the queried list. -/
def tm_cleanup_inactive_threads (now : Nat) (hours : Nat) (m : ManagerState) :
    List String × ManagerState :=
  let inactive := get_inactive_threads now hours m.store
  (inactive, inactive.foldl (fun acc tid => cancel_thread now tid acc) m)

/-- One event observed by a poller iteration: a successful `get_run` reply
with the given status, a `get_run` call raising a non-cancellation
exception, or the task being cancelled at its await point. -/
inductive PollEvent where
  | status (st : String)
  | exn
  | cancelSig
deriving Repr, DecidableEq

/-- How the poller coroutine ended: returned normally, let
`asyncio.CancelledError` propagate, or is still looping (the supplied
event trace ran out). -/
inductive PollOutcome where
  | returned
  | cancelledRaised
  | stillPolling
deriving Repr, DecidableEq

/-- Result of running `_poll_run_status` against a trace of remote events:
the final store, the list of sleep durations performed (in order), and how
the coroutine ended. -/
structure PollResult where
  store : StoreState
  sleeps : List Nat
  outcome : PollOutcome
deriving Repr, DecidableEq

/-- Embeds `ThreadManager._poll_run_status` (thread_manager.py:63-88), driven by an
explicit trace of remote events. Terminal statuses store themselves and
return; any other status sleeps `backoff` seconds and doubles the backoff up
to `max_backoff`; an exception stores `error` and returns; a cancellation
stores `cancelled` and re-raises. -/
def poll_run_status (now : Nat) (thread_id : String) (events : List PollEvent)
    (backoff : Nat := 1) (max_backoff : Nat := 10) (s : StoreState) : PollResult :=
  match events with
  | [] => ⟨s, [], .stillPolling⟩
  | e :: rest =>
    match e with
    | .status st =>
      if st = "completed" then
        ⟨(remove_active_run thread_id (set_thread_status now thread_id "completed" s)).2,
          [], .returned⟩
      else if st = "failed" then
        ⟨(remove_active_run thread_id (set_thread_status now thread_id "failed" s)).2,
          [], .returned⟩
      else if st = "cancelled" then
        ⟨(remove_active_run thread_id (set_thread_status now thread_id "cancelled" s)).2,
          [], .returned⟩
      else
        let r := poll_run_status now thread_id rest (min (backoff * 2) max_backoff) max_backoff s
        { r with sleeps := backoff :: r.sleeps }
    | .exn =>
        ⟨(remove_active_run thread_id (set_thread_status now thread_id "error" s)).2,
          [], .returned⟩
    | .cancelSig =>
        ⟨(remove_active_run thread_id (set_thread_status now thread_id "cancelled" s)).2,
          [], .cancelledRaised⟩

/-- The sleep durations produced by `n` non-terminal polls starting from
backoff `b`: `b`, then repeatedly doubled and capped at 10. -/
def backoffSeq (b : Nat) : Nat → List Nat
  | 0 => []
  | n + 1 => b :: backoffSeq (min (b * 2) 10) n

/-- One foreground tracker call, as used in the at-most-one-active-run
property: `run_thread` or `cancel_thread` with arbitrary arguments. -/
inductive TrackerOp where
  | runThread (now : Nat) (thread_id assistant_id run_id : String)
  | cancelThread (now : Nat) (thread_id : String)
deriving Repr, DecidableEq

def applyTrackerOp (m : ManagerState) : TrackerOp → ManagerState
  | .runThread now tid aid rid => run_thread now tid aid rid m
  | .cancelThread now tid => cancel_thread now tid m

def runTracker (ops : List TrackerOp) (m : ManagerState) : ManagerState :=
  ops.foldl applyTrackerOp m

/-- A manager over a fresh store with no tracked tasks. -/
def initialManager : ManagerState := ⟨emptyStore, [], []⟩

/-- One store-level mutation, as used in the runs-within-threads invariant. -/
inductive StoreOp where
  | addThread (now : Nat) (thread_id : String)
  | setThreadStatus (now : Nat) (thread_id status : String)
  | addActiveRun (now : Nat) (thread_id run_id assistant_id : String)
  | removeActiveRun (thread_id : String)
  | cleanupInactiveThreads (now hours : Nat)
deriving Repr, DecidableEq

def applyStoreOp (s : StoreState) : StoreOp → StoreState
  | .addThread now tid => add_thread now tid s
  | .setThreadStatus now tid st => set_thread_status now tid st s
  | .addActiveRun now tid rid aid => add_active_run now tid rid aid s
  | .removeActiveRun tid => (remove_active_run tid s).2
  | .cleanupInactiveThreads now hours => (cleanup_inactive_threads now hours s).2

def runStore (ops : List StoreOp) (s : StoreState) : StoreState :=
  ops.foldl applyStoreOp s

/-- Observable state of the snapshot file for `_load_data`
(file_storage.py:28-41): the file may be missing (`os.path.exists` false),
present but unreadable or unparsable (`open`/`json.load` raises), or present
and parsed to a document. -/
inductive SnapshotFile where
  | missing
  | unreadable
  | parsed (d : StoreData)
deriving Repr, DecidableEq

/-- Embeds `FileStorage._load_data` (file_storage.py:28-41): `self.data` starts as
two empty mappings; a parsed file replaces it; the exception handler resets
it to two empty mappings. The function never raises. -/
def load_data (file : SnapshotFile) : StoreData :=
  match file with
  | .missing => emptyData
  | .unreadable => emptyData
  | .parsed d => d

/-- Embeds `FileStorage.__init__` (file_storage.py:17-27): the constructed store
holds whatever `_load_data` produced and has performed no saves. -/
def fileStorage_init (file : SnapshotFile) : StoreState :=
  ⟨load_data file, 0⟩

/-- A JSON document, as produced by `json.dump` / consumed by `json.load`
for the snapshot layout. -/
inductive Json where
  | null
  | str (s : String)
  | num (n : Nat)
  | obj (members : List (String × Json))

/-- Serialization of a thread record (file_storage.py:58-62 layout). -/
def encodeThread (t : ThreadRec) : Json :=
  .obj [("status", .str t.status), ("last_activity", .num t.last_activity),
        ("assistant_id", match t.assistant_id with | none => .null | some a => .str a)]

def decodeThread : Json → Option ThreadRec
  | .obj [("status", .str st), ("last_activity", .num la), ("assistant_id", .null)] =>
      some ⟨st, la, none⟩
  | .obj [("status", .str st), ("last_activity", .num la), ("assistant_id", .str a)] =>
      some ⟨st, la, some a⟩
  | _ => none

/-- Serialization of an active-run record (file_storage.py:91-94 layout). -/
def encodeRun (r : RunRec) : Json :=
  .obj [("run_id", .str r.run_id), ("start_time", .num r.start_time)]

def decodeRun : Json → Option RunRec
  | .obj [("run_id", .str rid), ("start_time", .num st)] => some ⟨rid, st⟩
  | _ => none

def decodeThreadMap : List (String × Json) → Option (List (String × ThreadRec))
  | [] => some []
  | (k, j) :: rest =>
    match decodeThread j, decodeThreadMap rest with
    | some t, some ts => some ((k, t) :: ts)
    | _, _ => none

def decodeRunMap : List (String × Json) → Option (List (String × RunRec))
  | [] => some []
  | (k, j) :: rest =>
    match decodeRun j, decodeRunMap rest with
    | some r, some rs => some ((k, r) :: rs)
    | _, _ => none

/-- The snapshot document written by `json.dump(self.data, f)`
(file_storage.py:50, layout in spec section 6). -/
def encodeStoreData (d : StoreData) : Json :=
  .obj [("threads", .obj (d.threads.map (fun p => (p.1, encodeThread p.2)))),
        ("active_runs", .obj (d.active_runs.map (fun p => (p.1, encodeRun p.2))))]

/-- Deserialization of a snapshot document. -/
def decodeStoreData : Json → Option StoreData
  | .obj [("threads", .obj ts), ("active_runs", .obj rs)] =>
    match decodeThreadMap ts, decodeRunMap rs with
    | some t, some r => some ⟨t, r⟩
    | _, _ => none
  | _ => none

/-- The two files touched by `_save_data`: the primary snapshot at
`self.filepath` and the backup at `self.filepath + ".bak"`, each either
absent or holding a document. -/
structure FileSys where
  primary : Option Json
  backup : Option Json

/-- On-disk effect of `FileStorage._save_data` (file_storage.py:42-53):
if the primary file exists, copy its current contents to the backup path,
then overwrite the primary file with the serialized in-memory data. -/
def save_data_fs (fs : FileSys) (d : StoreData) : FileSys :=
  let fs1 :=
    match fs.primary with
    | some cur => { fs with backup := some cur }
    | none => fs
  { fs1 with primary := some (encodeStoreData d) }

/-- Embeds `FileStorage.periodic_save` (file_storage.py:131-133) with its disk
effect made explicit: one `_save_data` call on the current in-memory data. -/
def periodic_save_fs (fs : FileSys) (s : StoreState) : FileSys × StoreState :=
  (save_data_fs fs s.data, save_data_mem s)

/-- Well-formedness that every Python-dict-backed state enjoys: the keys of
both mappings are distinct. -/
def StoreWF (s : StoreState) : Prop :=
  (keysOf s.data.threads).Nodup ∧ (keysOf s.data.active_runs).Nodup

/-- Referential integrity of the document: every id with an active-run entry
also has a thread record. -/
def RunsCovered (d : StoreData) : Prop :=
  ∀ tid : String, (lookupK tid d.active_runs).isSome → (lookupK tid d.threads).isSome

/-- A run status on which `_poll_run_status` keeps looping. -/
def nonTerminalStatus (st : String) : Prop :=
  st ≠ "completed" ∧ st ≠ "failed" ∧ st ≠ "cancelled"

instance decNonTerminalStatus (st : String) : Decidable (nonTerminalStatus st) :=
  inferInstanceAs (Decidable (st ≠ "completed" ∧ st ≠ "failed" ∧ st ≠ "cancelled"))

/-- The backoff value after `n` non-terminal polls starting from `b`. -/
def iterB (b : Nat) : Nat → Nat
  | 0 => b
  | n + 1 => iterB (min (b * 2) 10) n

/-- Concrete state used to evaluate `cancel_thread` on an idle thread. -/
def mIdle : ManagerState :=
  ⟨⟨⟨[("t1", ⟨"created", 0, none⟩)], []⟩, 0⟩, [], []⟩

/-- Concrete store with one thread whose run is being polled. -/
def sPoll : StoreState :=
  ⟨⟨[("t1", ⟨"in_progress", 0, some "a1"⟩)], [("t1", ⟨"r1", 0⟩)]⟩, 0⟩

/-- Concrete store with one thread whose active run is 5 hours stale. -/
def sStale : StoreState :=
  ⟨⟨[("a", ⟨"in_progress", 0, some "x"⟩)], [("a", ⟨"r", 0⟩)]⟩, 0⟩

/-- Concrete manager with one stale active run and a live poller task. -/
def mStale : ManagerState :=
  ⟨⟨⟨[("t1", ⟨"in_progress", 0, some "a1"⟩)], [("t1", ⟨"r1", 0⟩)]⟩, 0⟩, ["t1"], []⟩

/-- Concrete file system whose primary snapshot holds an empty document. -/
def fsPrim : FileSys :=
  ⟨some (encodeStoreData emptyData), none⟩

/-- Concrete manager tracking an active run with no live poller task. -/
def mNoTask : ManagerState :=
  ⟨⟨⟨[("t1", ⟨"in_progress", 0, some "a1"⟩)], [("t1", ⟨"rOld", 0⟩)]⟩, 0⟩, [], []⟩

@[simp] theorem lookupK_nil (k : String) : lookupK (β := β) k [] = none := rfl

@[simp] theorem keysOf_nil : keysOf (β := β) [] = [] := rfl

@[simp] theorem keysOf_cons (a : String) (b : β) (l : List (String × β)) :
    keysOf ((a, b) :: l) = a :: keysOf l := rfl

theorem lookupK_setK_self (k : String) (v : β) (l : List (String × β)) :
    lookupK k (setK k v l) = some v := by
  induction l with
  | nil => simp [setK, lookupK]
  | cons p rest ih =>
    obtain ⟨k', v'⟩ := p
    by_cases h : k' = k
    · simp [setK, h, lookupK]
    · simp [setK, h, lookupK, ih]

theorem lookupK_setK_ne (k j : String) (v : β) (l : List (String × β)) (h : j ≠ k) :
    lookupK k (setK j v l) = lookupK k l := by
  induction l with
  | nil => simp [setK, lookupK, h]
  | cons p rest ih =>
    obtain ⟨k', v'⟩ := p
    by_cases hk : k' = j
    · subst hk
      simp [setK, lookupK, h]
    · by_cases hkk : k' = k
      · subst hkk
        simp [setK, hk, lookupK]
      · simp [setK, hk, lookupK, hkk, ih]

theorem lookupK_eraseK_self (k : String) (l : List (String × β)) :
    lookupK k (eraseK k l) = none := by
  induction l with
  | nil => simp [eraseK, lookupK]
  | cons p rest ih =>
    obtain ⟨k', v'⟩ := p
    by_cases h : k' = k
    · simpa [eraseK, List.filter_cons, h, lookupK] using ih
    · simpa [eraseK, List.filter_cons, h, lookupK] using ih

theorem lookupK_eraseK_ne (k j : String) (l : List (String × β)) (h : j ≠ k) :
    lookupK k (eraseK j l) = lookupK k l := by
  induction l with
  | nil => simp [eraseK, lookupK]
  | cons p rest ih =>
    obtain ⟨k', v'⟩ := p
    by_cases hk : k' = j
    · subst hk
      simp only [eraseK, List.filter_cons] at *
      have : ¬(k' = k) := fun hc => h (hc ▸ rfl)
      simpa [lookupK, this] using ih
    · by_cases hkk : k' = k
      · subst hkk
        simp only [eraseK, List.filter_cons] at *
        simp [hk, lookupK]
      · simp only [eraseK, List.filter_cons] at *
        simpa [hk, lookupK, hkk] using ih

theorem mem_keysOf_iff_lookupK_isSome (k : String) (l : List (String × β)) :
    k ∈ keysOf l ↔ (lookupK k l).isSome := by
  induction l with
  | nil => simp [lookupK]
  | cons p rest ih =>
    obtain ⟨k', v'⟩ := p
    by_cases h : k' = k
    · simp [lookupK, h]
    · rw [keysOf_cons, List.mem_cons]
      simp only [lookupK, h, if_false]
      constructor
      · rintro (rfl | hx)
        · exact absurd rfl h
        · exact ih.mp hx
      · intro hx
        exact Or.inr (ih.mpr hx)

theorem mem_keysOf_setK (x k : String) (v : β) (l : List (String × β)) :
    x ∈ keysOf (setK k v l) → x ∈ keysOf l ∨ x = k := by
  induction l with
  | nil =>
    intro hx
    simp [setK] at hx
    exact Or.inr hx
  | cons p rest ih =>
    obtain ⟨k', v'⟩ := p
    by_cases h : k' = k
    · subst h
      intro hx
      rw [setK, if_pos rfl, keysOf_cons, List.mem_cons] at hx
      rcases hx with hx | hx
      · exact Or.inr hx
      · refine Or.inl ?_
        rw [keysOf_cons, List.mem_cons]
        exact Or.inr hx
    · intro hx
      rw [setK, if_neg h, keysOf_cons, List.mem_cons] at hx
      rcases hx with hx | hx
      · refine Or.inl ?_
        rw [keysOf_cons, List.mem_cons]
        exact Or.inl hx
      · rcases ih hx with h1 | h1
        · refine Or.inl ?_
          rw [keysOf_cons, List.mem_cons]
          exact Or.inr h1
        · exact Or.inr h1

theorem nodup_keysOf_setK (k : String) (v : β) (l : List (String × β))
    (h : (keysOf l).Nodup) : (keysOf (setK k v l)).Nodup := by
  induction l with
  | nil => simp [setK]
  | cons p rest ih =>
    obtain ⟨k', v'⟩ := p
    rw [keysOf_cons, List.nodup_cons] at h
    by_cases hk : k' = k
    · subst hk
      rw [setK, if_pos rfl, keysOf_cons, List.nodup_cons]
      exact h
    · rw [setK, if_neg hk, keysOf_cons, List.nodup_cons]
      refine ⟨fun hx => ?_, ih h.2⟩
      rcases mem_keysOf_setK k' k v rest hx with h1 | h1
      · exact h.1 h1
      · exact hk h1

theorem sublist_eraseK (k : String) (l : List (String × β)) :
    (eraseK k l).Sublist l :=
  List.filter_sublist l

theorem nodup_keysOf_eraseK (k : String) (l : List (String × β))
    (h : (keysOf l).Nodup) : (keysOf (eraseK k l)).Nodup :=
  List.Nodup.sublist (List.Sublist.map Prod.fst (sublist_eraseK k l)) h

theorem countP_keys_le_one (tid : String) (l : List (String × β))
    (h : (keysOf l).Nodup) :
    l.countP (fun p => decide (p.1 = tid)) ≤ 1 := by
  induction l with
  | nil => simp
  | cons p rest ih =>
    obtain ⟨k', v'⟩ := p
    rw [keysOf_cons, List.nodup_cons] at h
    by_cases hk : k' = tid
    · subst hk
      have hzero : rest.countP (fun p => decide (p.1 = k')) = 0 := by
        refine List.countP_eq_zero.mpr ?_
        intro q hq
        simp only [decide_eq_true_eq]
        intro hq1
        have hmem : q.1 ∈ keysOf rest := List.mem_map_of_mem Prod.fst hq
        rw [hq1] at hmem
        exact h.1 hmem
      simp [List.countP_cons, hzero]
    · simpa [List.countP_cons, hk] using ih h.2

theorem decodeThread_encodeThread (t : ThreadRec) :
    decodeThread (encodeThread t) = some t := by
  obtain ⟨st, la, aid⟩ := t
  cases aid <;> rfl

theorem decodeRun_encodeRun (r : RunRec) :
    decodeRun (encodeRun r) = some r := rfl

theorem decodeThreadMap_map (l : List (String × ThreadRec)) :
    decodeThreadMap (l.map (fun p => (p.1, encodeThread p.2))) = some l := by
  induction l with
  | nil => rfl
  | cons p rest ih =>
    obtain ⟨k, t⟩ := p
    simp [decodeThreadMap, decodeThread_encodeThread, ih]

theorem decodeRunMap_map (l : List (String × RunRec)) :
    decodeRunMap (l.map (fun p => (p.1, encodeRun p.2))) = some l := by
  induction l with
  | nil => rfl
  | cons p rest ih =>
    obtain ⟨k, r⟩ := p
    simp [decodeRunMap, decodeRun_encodeRun, ih]

/-- Round-trip: deserializing a serialized snapshot reproduces the data. -/
theorem decode_encode_storeData (d : StoreData) :
    decodeStoreData (encodeStoreData d) = some d := by
  obtain ⟨ts, rs⟩ := d
  simp [encodeStoreData, decodeStoreData, decodeThreadMap_map, decodeRunMap_map]

@[simp] theorem save_data_mem_data (s : StoreState) : (save_data_mem s).data = s.data := rfl

theorem lookupK_setK_isSome (k j : String) (v : β) (l : List (String × β))
    (h : (lookupK k l).isSome) : (lookupK k (setK j v l)).isSome := by
  by_cases hj : j = k
  · subst hj
    rw [lookupK_setK_self]
    rfl
  · rwa [lookupK_setK_ne k j v l hj]

theorem keysOf_setK_of_mem (k : String) (v : β) (l : List (String × β))
    (h : k ∈ keysOf l) : keysOf (setK k v l) = keysOf l := by
  induction l with
  | nil => simp at h
  | cons p rest ih =>
    obtain ⟨k', v'⟩ := p
    by_cases hk : k' = k
    · subst hk
      rw [setK, if_pos rfl, keysOf_cons, keysOf_cons]
    · rw [keysOf_cons, List.mem_cons] at h
      rcases h with h | h
      · exact absurd h.symm hk
      · rw [setK, if_neg hk, keysOf_cons, keysOf_cons, ih h]

theorem set_thread_status_runs (now : Nat) (tid st : String) (s : StoreState) :
    (set_thread_status now tid st s).data.active_runs = s.data.active_runs := by
  cases h : lookupK tid s.data.threads with
  | none => simp [set_thread_status, h]
  | some td => simp [set_thread_status, h]

theorem set_thread_status_keys (now : Nat) (tid st : String) (s : StoreState) :
    keysOf (set_thread_status now tid st s).data.threads = keysOf s.data.threads := by
  cases h : lookupK tid s.data.threads with
  | none => simp [set_thread_status, h]
  | some td =>
    have hmem : tid ∈ keysOf s.data.threads :=
      (mem_keysOf_iff_lookupK_isSome tid s.data.threads).mpr (by simp [h])
    simp [set_thread_status, h, keysOf_setK_of_mem _ _ _ hmem]

theorem set_thread_status_threads_isSome (now : Nat) (tid st k : String) (s : StoreState)
    (h : (lookupK k s.data.threads).isSome) :
    (lookupK k (set_thread_status now tid st s).data.threads).isSome := by
  cases hl : lookupK tid s.data.threads with
  | none => simpa [set_thread_status, hl] using h
  | some td =>
    simp only [set_thread_status, hl, save_data_mem_data]
    exact lookupK_setK_isSome k tid _ _ h

theorem get_set_thread_status_self (now : Nat) (tid st : String) (s : StoreState)
    (h : (lookupK tid s.data.threads).isSome) :
    get_thread_status tid (set_thread_status now tid st s) = some st := by
  obtain ⟨td, htd⟩ := Option.isSome_iff_exists.mp h
  simp [set_thread_status, htd, get_thread_status, lookupK_setK_self]

theorem get_set_thread_status_ne (now : Nat) (tid st k : String) (s : StoreState)
    (h : tid ≠ k) :
    get_thread_status k (set_thread_status now tid st s) = get_thread_status k s := by
  cases hl : lookupK tid s.data.threads with
  | none => simp [set_thread_status, hl]
  | some td =>
    simp [set_thread_status, hl, get_thread_status, lookupK_setK_ne k tid _ _ h]

theorem lookupK_set_thread_status_ne (now : Nat) (tid st k : String) (s : StoreState)
    (h : tid ≠ k) :
    lookupK k (set_thread_status now tid st s).data.threads = lookupK k s.data.threads := by
  cases hl : lookupK tid s.data.threads with
  | none => simp [set_thread_status, hl]
  | some td => simp [set_thread_status, hl, lookupK_setK_ne k tid _ _ h]

theorem remove_active_run_threads (tid : String) (s : StoreState) :
    (remove_active_run tid s).2.data.threads = s.data.threads := by
  cases h : lookupK tid s.data.active_runs with
  | none => simp [remove_active_run, h]
  | some rr => simp [remove_active_run, h]

theorem remove_active_run_self (tid : String) (s : StoreState) :
    lookupK tid (remove_active_run tid s).2.data.active_runs = none := by
  cases h : lookupK tid s.data.active_runs with
  | none => simp [remove_active_run, h]
  | some rr => simp [remove_active_run, h, lookupK_eraseK_self]

theorem remove_active_run_ne (tid k : String) (s : StoreState) (h : tid ≠ k) :
    lookupK k (remove_active_run tid s).2.data.active_runs =
      lookupK k s.data.active_runs := by
  cases hl : lookupK tid s.data.active_runs with
  | none => simp [remove_active_run, hl]
  | some rr => simp [remove_active_run, hl, lookupK_eraseK_ne k tid _ h]

theorem remove_active_run_of_none (tid : String) (s : StoreState)
    (h : lookupK tid s.data.active_runs = none) :
    (remove_active_run tid s).2 = s := by
  simp [remove_active_run, h]

theorem remove_active_run_none_mono (tid k : String) (s : StoreState)
    (h : lookupK k s.data.active_runs = none) :
    lookupK k (remove_active_run tid s).2.data.active_runs = none := by
  by_cases hk : tid = k
  · subst hk
    exact remove_active_run_self tid s
  · rwa [remove_active_run_ne tid k s hk]

theorem add_active_run_runs_self (now : Nat) (tid rid aid : String) (s : StoreState) :
    lookupK tid (add_active_run now tid rid aid s).data.active_runs = some ⟨rid, now⟩ := by
  cases h : lookupK tid s.data.threads with
  | none => simp [add_active_run, h, lookupK_setK_self]
  | some td => simp [add_active_run, h, lookupK_setK_self]

theorem add_active_run_threads_self (now : Nat) (tid rid aid : String) (s : StoreState) :
    lookupK tid (add_active_run now tid rid aid s).data.threads =
      some ⟨"in_progress", now, some aid⟩ := by
  cases h : lookupK tid s.data.threads with
  | none => simp [add_active_run, h, lookupK_setK_self]
  | some td => simp [add_active_run, h, lookupK_setK_self]

theorem add_active_run_runs_ne (now : Nat) (tid rid aid k : String) (s : StoreState)
    (h : tid ≠ k) :
    lookupK k (add_active_run now tid rid aid s).data.active_runs =
      lookupK k s.data.active_runs := by
  cases hl : lookupK tid s.data.threads with
  | none => simp [add_active_run, hl, lookupK_setK_ne k tid _ _ h]
  | some td => simp [add_active_run, hl, lookupK_setK_ne k tid _ _ h]

theorem add_active_run_threads_ne (now : Nat) (tid rid aid k : String) (s : StoreState)
    (h : tid ≠ k) :
    lookupK k (add_active_run now tid rid aid s).data.threads =
      lookupK k s.data.threads := by
  cases hl : lookupK tid s.data.threads with
  | none => simp [add_active_run, hl, lookupK_setK_ne k tid _ _ h]
  | some td => simp [add_active_run, hl, lookupK_setK_ne k tid _ _ h]

theorem add_thread_of_isSome (now : Nat) (tid : String) (s : StoreState)
    (h : (lookupK tid s.data.threads).isSome) : add_thread now tid s = s := by
  simp [add_thread, h]

theorem add_thread_self_of_none (now : Nat) (tid : String) (s : StoreState)
    (h : lookupK tid s.data.threads = none) :
    lookupK tid (add_thread now tid s).data.threads = some ⟨"created", now, none⟩ := by
  simp [add_thread, h, lookupK_setK_self]

theorem add_thread_runs (now : Nat) (tid : String) (s : StoreState) :
    (add_thread now tid s).data.active_runs = s.data.active_runs := by
  by_cases h : (lookupK tid s.data.threads).isSome
  · simp [add_thread, h]
  · simp [add_thread, h]

theorem add_thread_threads_isSome (now : Nat) (tid k : String) (s : StoreState)
    (h : (lookupK k s.data.threads).isSome) :
    (lookupK k (add_thread now tid s).data.threads).isSome := by
  by_cases hl : (lookupK tid s.data.threads).isSome
  · simpa [add_thread, hl] using h
  · simp only [add_thread, hl, if_false, Bool.false_eq_true, save_data_mem_data]
    exact lookupK_setK_isSome k tid _ _ h

theorem add_thread_isSome_self (now : Nat) (tid : String) (s : StoreState) :
    (lookupK tid (add_thread now tid s).data.threads).isSome := by
  by_cases hl : (lookupK tid s.data.threads).isSome
  · simp [add_thread, hl]
  · have h0 : lookupK tid s.data.threads = none := by
      cases h : lookupK tid s.data.threads
      · rfl
      · exact absurd (by simp [h]) hl
    simp [add_thread_self_of_none now tid s h0]

theorem cancel_thread_store_shape (now : Nat) (tid : String) (m : ManagerState) :
    (cancel_thread now tid m).store =
      set_thread_status now tid "cancelled"
        (remove_active_run tid
          (if tid ∈ m.tasks then pollerCancelHandler now tid m.store else m.store)).2 := by
  by_cases ht : tid ∈ m.tasks
  · cases hr : get_active_run tid (pollerCancelHandler now tid m.store) with
    | none => simp [cancel_thread, ht, hr]
    | some rr => simp [cancel_thread, ht, hr]
  · cases hr : get_active_run tid m.store with
    | none => simp [cancel_thread, ht, hr]
    | some rr => simp [cancel_thread, ht, hr]

theorem pollerCancelHandler_threads_isSome (now : Nat) (tid k : String) (s : StoreState)
    (h : (lookupK k s.data.threads).isSome) :
    (lookupK k (pollerCancelHandler now tid s).data.threads).isSome := by
  rw [pollerCancelHandler, remove_active_run_threads]
  exact set_thread_status_threads_isSome now tid _ k s h

theorem pollerCancelHandler_runs_self (now : Nat) (tid : String) (s : StoreState) :
    lookupK tid (pollerCancelHandler now tid s).data.active_runs = none := by
  rw [pollerCancelHandler]
  exact remove_active_run_self tid _

theorem pollerCancelHandler_keys (now : Nat) (tid : String) (s : StoreState) :
    keysOf (pollerCancelHandler now tid s).data.threads = keysOf s.data.threads := by
  rw [pollerCancelHandler, remove_active_run_threads, set_thread_status_keys]

theorem cancel_thread_runs_self (now : Nat) (tid : String) (m : ManagerState) :
    lookupK tid (cancel_thread now tid m).store.data.active_runs = none := by
  rw [cancel_thread_store_shape, set_thread_status_runs]
  exact remove_active_run_self tid _

theorem cancel_thread_status_self (now : Nat) (tid : String) (m : ManagerState)
    (h : (lookupK tid m.store.data.threads).isSome) :
    get_thread_status tid (cancel_thread now tid m).store = some "cancelled" := by
  rw [cancel_thread_store_shape]
  apply get_set_thread_status_self
  rw [remove_active_run_threads]
  by_cases ht : tid ∈ m.tasks
  · rw [if_pos ht]
    exact pollerCancelHandler_threads_isSome now tid tid m.store h
  · rwa [if_neg ht]

theorem cancel_thread_threads_keys (now : Nat) (tid : String) (m : ManagerState) :
    keysOf (cancel_thread now tid m).store.data.threads =
      keysOf m.store.data.threads := by
  rw [cancel_thread_store_shape, set_thread_status_keys, remove_active_run_threads]
  by_cases ht : tid ∈ m.tasks
  · rw [if_pos ht, pollerCancelHandler_keys]
  · rw [if_neg ht]

theorem cancel_thread_threads_isSome (now : Nat) (tid k : String) (m : ManagerState)
    (h : (lookupK k m.store.data.threads).isSome) :
    (lookupK k (cancel_thread now tid m).store.data.threads).isSome := by
  rw [← mem_keysOf_iff_lookupK_isSome, cancel_thread_threads_keys,
    mem_keysOf_iff_lookupK_isSome]
  exact h

theorem cancel_thread_status_ne (now : Nat) (tid k : String) (m : ManagerState)
    (h : tid ≠ k) :
    get_thread_status k (cancel_thread now tid m).store = get_thread_status k m.store := by
  rw [cancel_thread_store_shape, get_set_thread_status_ne _ _ _ _ _ h]
  unfold get_thread_status
  rw [remove_active_run_threads]
  by_cases ht : tid ∈ m.tasks
  · rw [if_pos ht, pollerCancelHandler, remove_active_run_threads,
      lookupK_set_thread_status_ne _ _ _ _ _ h]
  · rw [if_neg ht]

theorem cancel_thread_runs_ne (now : Nat) (tid k : String) (m : ManagerState)
    (h : tid ≠ k) :
    lookupK k (cancel_thread now tid m).store.data.active_runs =
      lookupK k m.store.data.active_runs := by
  rw [cancel_thread_store_shape, set_thread_status_runs, remove_active_run_ne _ _ _ h]
  by_cases ht : tid ∈ m.tasks
  · rw [if_pos ht, pollerCancelHandler]
    rw [remove_active_run_ne _ _ _ h, set_thread_status_runs]
  · rw [if_neg ht]

theorem cancel_thread_runs_none_mono (now : Nat) (tid k : String) (m : ManagerState)
    (h : lookupK k m.store.data.active_runs = none) :
    lookupK k (cancel_thread now tid m).store.data.active_runs = none := by
  by_cases hk : tid = k
  · subst hk
    exact cancel_thread_runs_self now tid m
  · rwa [cancel_thread_runs_ne now tid k m hk]

theorem cancel_thread_runs_of_none (now : Nat) (tid : String) (m : ManagerState)
    (h : lookupK tid m.store.data.active_runs = none) :
    (cancel_thread now tid m).store.data.active_runs = m.store.data.active_runs := by
  rw [cancel_thread_store_shape, set_thread_status_runs]
  by_cases ht : tid ∈ m.tasks
  · rw [if_pos ht]
    have h1 : pollerCancelHandler now tid m.store =
        set_thread_status now tid "cancelled" m.store := by
      rw [pollerCancelHandler]
      apply remove_active_run_of_none
      rw [set_thread_status_runs]
      exact h
    rw [h1]
    rw [remove_active_run_of_none _ _ (by rw [set_thread_status_runs]; exact h)]
    rw [set_thread_status_runs]
  · rw [if_neg ht]
    rw [remove_active_run_of_none _ _ h]

theorem run_thread_runs_self (now : Nat) (tid aid rid : String) (m : ManagerState) :
    lookupK tid (run_thread now tid aid rid m).store.data.active_runs =
      some ⟨rid, now⟩ := by
  simp only [run_thread]
  rw [set_thread_status_runs]
  exact add_active_run_runs_self now tid rid aid _

theorem cancel_thread_remoteCancels_of_run (now : Nat) (tid : String)
    (m : ManagerState) (rr : RunRec)
    (hr : lookupK tid m.store.data.active_runs = some rr) (ht : tid ∉ m.tasks) :
    (cancel_thread now tid m).remoteCancels =
      m.remoteCancels ++ [(tid, rr.run_id)] := by
  simp [cancel_thread, ht, get_active_run, hr]

theorem run_thread_remoteCancels (now : Nat) (tid aid rid : String)
    (m : ManagerState) (rr : RunRec)
    (hr : lookupK tid m.store.data.active_runs = some rr) (ht : tid ∉ m.tasks) :
    (run_thread now tid aid rid m).remoteCancels =
      m.remoteCancels ++ [(tid, rr.run_id)] := by
  by_cases hs : (get_thread_status tid m.store).isSome
  · simp only [run_thread, hs, if_pos]
    exact cancel_thread_remoteCancels_of_run now tid m rr hr ht
  · simp only [run_thread, hs, Bool.false_eq_true, if_false]
    exact cancel_thread_remoteCancels_of_run now tid
      { m with store := add_thread now tid m.store } rr
      (by rw [show ({ m with store := add_thread now tid m.store } :
          ManagerState).store = add_thread now tid m.store from rfl, add_thread_runs]
          exact hr) ht

theorem storeWF_empty : StoreWF emptyStore := ⟨List.nodup_nil, List.nodup_nil⟩

theorem storeWF_add_thread (now : Nat) (tid : String) (s : StoreState)
    (h : StoreWF s) : StoreWF (add_thread now tid s) := by
  by_cases hl : (lookupK tid s.data.threads).isSome
  · simpa [add_thread, hl] using h
  · exact ⟨by simpa [add_thread, hl] using nodup_keysOf_setK _ _ _ h.1,
      by simpa [add_thread, hl] using h.2⟩

theorem storeWF_set_thread_status (now : Nat) (tid st : String) (s : StoreState)
    (h : StoreWF s) : StoreWF (set_thread_status now tid st s) := by
  cases hl : lookupK tid s.data.threads with
  | none => simpa [set_thread_status, hl] using h
  | some td =>
    exact ⟨by simpa [set_thread_status, hl] using nodup_keysOf_setK _ _ _ h.1,
      by simpa [set_thread_status, hl] using h.2⟩

theorem storeWF_add_active_run (now : Nat) (tid rid aid : String) (s : StoreState)
    (h : StoreWF s) : StoreWF (add_active_run now tid rid aid s) := by
  cases hl : lookupK tid s.data.threads with
  | none =>
    exact ⟨by simpa [add_active_run, hl] using nodup_keysOf_setK _ _ _ h.1,
      by simpa [add_active_run, hl] using nodup_keysOf_setK _ _ _ h.2⟩
  | some td =>
    exact ⟨by simpa [add_active_run, hl] using nodup_keysOf_setK _ _ _ h.1,
      by simpa [add_active_run, hl] using nodup_keysOf_setK _ _ _ h.2⟩

theorem storeWF_remove_active_run (tid : String) (s : StoreState)
    (h : StoreWF s) : StoreWF (remove_active_run tid s).2 := by
  cases hl : lookupK tid s.data.active_runs with
  | none => simpa [remove_active_run, hl] using h
  | some rr =>
    exact ⟨by simpa [remove_active_run, hl] using h.1,
      by simpa [remove_active_run, hl] using nodup_keysOf_eraseK _ _ h.2⟩

theorem nodup_cleanupStep (d : StoreData) (tid : String)
    (h1 : (keysOf d.threads).Nodup) (h2 : (keysOf d.active_runs).Nodup) :
    (keysOf (cleanupStep d tid).threads).Nodup ∧
      (keysOf (cleanupStep d tid).active_runs).Nodup := by
  unfold cleanupStep
  by_cases hr : (lookupK tid d.active_runs).isSome
  · cases ht : lookupK tid d.threads with
    | none => exact ⟨by simpa [hr, ht] using h1, by simpa [hr, ht] using nodup_keysOf_eraseK _ _ h2⟩
    | some td =>
      exact ⟨by simpa [hr, ht] using nodup_keysOf_setK _ _ _ h1,
        by simpa [hr, ht] using nodup_keysOf_eraseK _ _ h2⟩
  · cases ht : lookupK tid d.threads with
    | none => exact ⟨by simpa [hr, ht] using h1, by simpa [hr, ht] using h2⟩
    | some td =>
      exact ⟨by simpa [hr, ht] using nodup_keysOf_setK _ _ _ h1,
        by simpa [hr, ht] using h2⟩

theorem nodup_foldl_cleanupStep (l : List String) (d : StoreData)
    (h1 : (keysOf d.threads).Nodup) (h2 : (keysOf d.active_runs).Nodup) :
    (keysOf (l.foldl cleanupStep d).threads).Nodup ∧
      (keysOf (l.foldl cleanupStep d).active_runs).Nodup := by
  induction l generalizing d with
  | nil => exact ⟨h1, h2⟩
  | cons a l ih =>
    have := nodup_cleanupStep d a h1 h2
    exact ih (cleanupStep d a) this.1 this.2

theorem storeWF_cleanup_inactive_threads (now hours : Nat) (s : StoreState)
    (h : StoreWF s) : StoreWF (cleanup_inactive_threads now hours s).2 := by
  unfold cleanup_inactive_threads StoreWF
  have := nodup_foldl_cleanupStep (get_inactive_threads now hours s) s.data h.1 h.2
  by_cases he : (get_inactive_threads now hours s).isEmpty
  · simpa [he] using this
  · simpa [he] using this

theorem storeWF_applyStoreOp (s : StoreState) (op : StoreOp)
    (h : StoreWF s) : StoreWF (applyStoreOp s op) := by
  cases op with
  | addThread now tid => exact storeWF_add_thread now tid s h
  | setThreadStatus now tid st => exact storeWF_set_thread_status now tid st s h
  | addActiveRun now tid rid aid => exact storeWF_add_active_run now tid rid aid s h
  | removeActiveRun tid => exact storeWF_remove_active_run tid s h
  | cleanupInactiveThreads now hours => exact storeWF_cleanup_inactive_threads now hours s h

theorem storeWF_pollerCancelHandler (now : Nat) (tid : String) (s : StoreState)
    (h : StoreWF s) : StoreWF (pollerCancelHandler now tid s) :=
  storeWF_remove_active_run tid _ (storeWF_set_thread_status now tid _ s h)

theorem storeWF_cancel_thread (now : Nat) (tid : String) (m : ManagerState)
    (h : StoreWF m.store) : StoreWF (cancel_thread now tid m).store := by
  rw [cancel_thread_store_shape]
  apply storeWF_set_thread_status
  apply storeWF_remove_active_run
  by_cases ht : tid ∈ m.tasks
  · rw [if_pos ht]
    exact storeWF_pollerCancelHandler now tid m.store h
  · rwa [if_neg ht]

theorem storeWF_run_thread (now : Nat) (tid aid rid : String) (m : ManagerState)
    (h : StoreWF m.store) : StoreWF (run_thread now tid aid rid m).store := by
  simp only [run_thread]
  apply storeWF_set_thread_status
  apply storeWF_add_active_run
  apply storeWF_cancel_thread
  by_cases hs : (get_thread_status tid m.store).isSome
  · simpa [hs] using h
  · simpa [hs] using storeWF_add_thread now tid m.store h

theorem storeWF_runTracker (ops : List TrackerOp) (m : ManagerState)
    (h : StoreWF m.store) : StoreWF (runTracker ops m).store := by
  induction ops generalizing m with
  | nil => exact h
  | cons op ops ih =>
    apply ih
    cases op with
    | runThread now tid aid rid => exact storeWF_run_thread now tid aid rid m h
    | cancelThread now tid => exact storeWF_cancel_thread now tid m h

theorem runsCovered_empty : RunsCovered emptyData := by
  intro tid h
  simp [emptyData] at h

theorem runsCovered_add_thread (now : Nat) (tid : String) (s : StoreState)
    (h : RunsCovered s.data) : RunsCovered (add_thread now tid s).data := by
  intro k hk
  rw [add_thread_runs] at hk
  exact add_thread_threads_isSome now tid k s (h k hk)

theorem runsCovered_set_thread_status (now : Nat) (tid st : String) (s : StoreState)
    (h : RunsCovered s.data) : RunsCovered (set_thread_status now tid st s).data := by
  intro k hk
  rw [set_thread_status_runs] at hk
  exact set_thread_status_threads_isSome now tid st k s (h k hk)

theorem runsCovered_add_active_run (now : Nat) (tid rid aid : String) (s : StoreState)
    (h : RunsCovered s.data) : RunsCovered (add_active_run now tid rid aid s).data := by
  intro k hk
  by_cases hke : tid = k
  · subst hke
    rw [add_active_run_threads_self]
    rfl
  · rw [add_active_run_runs_ne now tid rid aid k s hke] at hk
    have hcov := h k hk
    cases hl : lookupK tid s.data.threads with
    | none =>
      simp only [add_active_run, hl, save_data_mem_data]
      exact lookupK_setK_isSome k tid _ _ hcov
    | some td =>
      simp only [add_active_run, hl, save_data_mem_data]
      exact lookupK_setK_isSome k tid _ _ hcov

theorem runsCovered_remove_active_run (tid : String) (s : StoreState)
    (h : RunsCovered s.data) : RunsCovered (remove_active_run tid s).2.data := by
  intro k hk
  rw [remove_active_run_threads]
  by_cases hke : tid = k
  · subst hke
    rw [remove_active_run_self] at hk
    simp at hk
  · rw [remove_active_run_ne tid k s hke] at hk
    exact h k hk

theorem cleanupStep_threads_of_some (d : StoreData) (t : String) (td : ThreadRec)
    (ht : lookupK t d.threads = some td) :
    (cleanupStep d t).threads =
      setK t { td with status := "cancelled_inactive" } d.threads := by
  by_cases hr : (lookupK t d.active_runs).isSome
  · simp [cleanupStep, hr, ht]
  · simp [cleanupStep, hr, ht]

theorem cleanupStep_threads_of_none (d : StoreData) (t : String)
    (ht : lookupK t d.threads = none) :
    (cleanupStep d t).threads = d.threads := by
  by_cases hr : (lookupK t d.active_runs).isSome
  · simp [cleanupStep, hr, ht]
  · simp [cleanupStep, hr, ht]

theorem cleanupStep_runs_eq (d : StoreData) (t : String) :
    (cleanupStep d t).active_runs =
      if (lookupK t d.active_runs).isSome then eraseK t d.active_runs
      else d.active_runs := by
  by_cases hr : (lookupK t d.active_runs).isSome
  · cases ht : lookupK t d.threads with
    | none => simp [cleanupStep, hr, ht]
    | some td => simp [cleanupStep, hr, ht]
  · cases ht : lookupK t d.threads with
    | none => simp [cleanupStep, hr, ht]
    | some td => simp [cleanupStep, hr, ht]

theorem cleanupStep_threads_isSome (d : StoreData) (t k : String)
    (h : (lookupK k d.threads).isSome) :
    (lookupK k (cleanupStep d t).threads).isSome := by
  cases ht : lookupK t d.threads with
  | none => rwa [cleanupStep_threads_of_none d t ht]
  | some td =>
    rw [cleanupStep_threads_of_some d t td ht]
    exact lookupK_setK_isSome k t _ _ h

theorem cleanupStep_runs_none_mono (d : StoreData) (t k : String)
    (h : lookupK k d.active_runs = none) :
    lookupK k (cleanupStep d t).active_runs = none := by
  rw [cleanupStep_runs_eq]
  by_cases hr : (lookupK t d.active_runs).isSome
  · rw [if_pos hr]
    by_cases hk : t = k
    · subst hk
      exact lookupK_eraseK_self t d.active_runs
    · rwa [lookupK_eraseK_ne k t _ hk]
  · rwa [if_neg hr]

theorem cleanupStep_runs_isSome_rev (d : StoreData) (t k : String)
    (h : (lookupK k (cleanupStep d t).active_runs).isSome) :
    (lookupK k d.active_runs).isSome := by
  by_contra hc
  have h0 : lookupK k d.active_runs = none := Option.not_isSome_iff_eq_none.mp hc
  rw [cleanupStep_runs_none_mono d t k h0] at h
  simp at h

theorem runsCovered_cleanupStep (d : StoreData) (t : String)
    (h : RunsCovered d) : RunsCovered (cleanupStep d t) := by
  intro k hk
  exact cleanupStep_threads_isSome d t k (h k (cleanupStep_runs_isSome_rev d t k hk))

theorem runsCovered_foldl_cleanupStep (l : List String) (d : StoreData)
    (h : RunsCovered d) : RunsCovered (l.foldl cleanupStep d) := by
  induction l generalizing d with
  | nil => exact h
  | cons a l ih => exact ih (cleanupStep d a) (runsCovered_cleanupStep d a h)

theorem runsCovered_cleanup_inactive_threads (now hours : Nat) (s : StoreState)
    (h : RunsCovered s.data) :
    RunsCovered (cleanup_inactive_threads now hours s).2.data := by
  unfold cleanup_inactive_threads
  have := runsCovered_foldl_cleanupStep (get_inactive_threads now hours s) s.data h
  by_cases he : (get_inactive_threads now hours s).isEmpty
  · simpa [he] using this
  · simpa [he] using this

theorem runsCovered_applyStoreOp (s : StoreState) (op : StoreOp)
    (h : RunsCovered s.data) : RunsCovered (applyStoreOp s op).data := by
  cases op with
  | addThread now tid => exact runsCovered_add_thread now tid s h
  | setThreadStatus now tid st => exact runsCovered_set_thread_status now tid st s h
  | addActiveRun now tid rid aid => exact runsCovered_add_active_run now tid rid aid s h
  | removeActiveRun tid => exact runsCovered_remove_active_run tid s h
  | cleanupInactiveThreads now hours => exact runsCovered_cleanup_inactive_threads now hours s h

theorem runsCovered_runStore (ops : List StoreOp) (s : StoreState)
    (h : RunsCovered s.data) : RunsCovered (runStore ops s).data := by
  induction ops generalizing s with
  | nil => exact h
  | cons op ops ih => exact ih (applyStoreOp s op) (runsCovered_applyStoreOp s op h)

theorem lookupK_eq_some_of_mem_nodup (k : String) (v : β) (l : List (String × β))
    (hnd : (keysOf l).Nodup) (h : (k, v) ∈ l) : lookupK k l = some v := by
  induction l with
  | nil => simp at h
  | cons p rest ih =>
    obtain ⟨k', v'⟩ := p
    rw [keysOf_cons, List.nodup_cons] at hnd
    rcases List.mem_cons.mp h with h | h
    · have h1 : k' = k := (congrArg Prod.fst h).symm
      have h2 : v = v' := congrArg Prod.snd h
      rw [lookupK, if_pos h1, ← h2]
    · by_cases hk : k' = k
      · subst hk
        have : k' ∈ keysOf rest := List.mem_map_of_mem Prod.fst h
        exact absurd this hnd.1
      · rw [lookupK, if_neg hk]
        exact ih hnd.2 h

theorem mem_of_lookupK_eq_some (k : String) (v : β) (l : List (String × β))
    (h : lookupK k l = some v) : (k, v) ∈ l := by
  induction l with
  | nil => simp [lookupK] at h
  | cons p rest ih =>
    obtain ⟨k', v'⟩ := p
    by_cases hk : k' = k
    · subst hk
      rw [lookupK, if_pos rfl] at h
      exact List.mem_cons.mpr (Or.inl (by rw [Option.some_inj.mp h]))
    · rw [lookupK, if_neg hk] at h
      exact List.mem_cons.mpr (Or.inr (ih h))

/-- Membership characterisation of `get_inactive_threads` over a store with
distinct thread keys. -/
theorem mem_get_inactive_threads (now hours : Nat) (s : StoreState) (tid : String)
    (hnd : (keysOf s.data.threads).Nodup) :
    tid ∈ get_inactive_threads now hours s ↔
      ∃ td, lookupK tid s.data.threads = some td ∧
        (lookupK tid s.data.active_runs).isSome ∧
        inactiveAge now hours td = true := by
  unfold get_inactive_threads
  constructor
  · intro h
    obtain ⟨p, hp, hfst⟩ := List.mem_map.mp h
    obtain ⟨hmem, hcond⟩ := List.mem_filter.mp hp
    obtain ⟨k, td⟩ := p
    have hk : k = tid := hfst
    subst hk
    refine ⟨td, lookupK_eq_some_of_mem_nodup k td _ hnd hmem, ?_, ?_⟩
    · exact (Bool.and_eq_true_iff.mp hcond).1
    · exact (Bool.and_eq_true_iff.mp hcond).2
  · rintro ⟨td, hlk, hrun, hage⟩
    refine List.mem_map.mpr ⟨(tid, td), List.mem_filter.mpr ⟨?_, ?_⟩, rfl⟩
    · exact mem_of_lookupK_eq_some tid td _ hlk
    · exact Bool.and_eq_true_iff.mpr ⟨hrun, hage⟩

theorem cleanupStep_runs_self (d : StoreData) (t : String) :
    lookupK t (cleanupStep d t).active_runs = none := by
  rw [cleanupStep_runs_eq]
  by_cases hr : (lookupK t d.active_runs).isSome
  · rw [if_pos hr]
    exact lookupK_eraseK_self t d.active_runs
  · rw [if_neg hr]
    exact Option.not_isSome_iff_eq_none.mp hr

theorem foldl_cleanupStep_runs_none (l : List String) (d : StoreData) (tid : String)
    (h : tid ∈ l ∨ lookupK tid d.active_runs = none) :
    lookupK tid (l.foldl cleanupStep d).active_runs = none := by
  induction l generalizing d with
  | nil =>
    rcases h with h | h
    · simp at h
    · exact h
  | cons a l ih =>
    by_cases ha : tid = a
    · subst ha
      exact ih (cleanupStep d tid) (Or.inr (cleanupStep_runs_self d tid))
    · rcases h with h | h
      · rcases List.mem_cons.mp h with h | h
        · exact absurd h ha
        · exact ih (cleanupStep d a) (Or.inl h)
      · exact ih (cleanupStep d a) (Or.inr (cleanupStep_runs_none_mono d a tid h))

theorem cleanupStep_threads_ne (d : StoreData) (t k : String) (h : t ≠ k) :
    lookupK k (cleanupStep d t).threads = lookupK k d.threads := by
  cases ht : lookupK t d.threads with
  | none => rw [cleanupStep_threads_of_none d t ht]
  | some td =>
    rw [cleanupStep_threads_of_some d t td ht]
    exact lookupK_setK_ne k t _ _ h

theorem cleanupStep_status_self (d : StoreData) (t : String)
    (h : (lookupK t d.threads).isSome) :
    ∃ td, lookupK t (cleanupStep d t).threads = some td ∧
      td.status = "cancelled_inactive" := by
  obtain ⟨td, htd⟩ := Option.isSome_iff_exists.mp h
  refine ⟨{ td with status := "cancelled_inactive" }, ?_, rfl⟩
  rw [cleanupStep_threads_of_some d t td htd]
  exact lookupK_setK_self t _ _

theorem foldl_cleanupStep_status (l : List String) (d : StoreData) (tid : String)
    (hpres : (lookupK tid d.threads).isSome)
    (h : tid ∈ l ∨
      (∃ td, lookupK tid d.threads = some td ∧ td.status = "cancelled_inactive")) :
    ∃ td, lookupK tid (l.foldl cleanupStep d).threads = some td ∧
      td.status = "cancelled_inactive" := by
  induction l generalizing d with
  | nil =>
    rcases h with h | h
    · simp at h
    · exact h
  | cons a l ih =>
    have hpres' : (lookupK tid (cleanupStep d a).threads).isSome :=
      cleanupStep_threads_isSome d a tid hpres
    by_cases ha : tid = a
    · subst ha
      exact ih (cleanupStep d tid) hpres' (Or.inr (cleanupStep_status_self d tid hpres))
    · rcases h with h | h
      · rcases List.mem_cons.mp h with h | h
        · exact absurd h ha
        · exact ih (cleanupStep d a) hpres' (Or.inl h)
      · obtain ⟨td, htd, hst⟩ := h
        refine ih (cleanupStep d a) hpres' (Or.inr ⟨td, ?_, hst⟩)
        rw [cleanupStep_threads_ne d a tid (fun hc => ha hc.symm)]
        exact htd

theorem foldl_cancel_status (now : Nat) (l : List String) (m : ManagerState)
    (tid : String) (hpres : (lookupK tid m.store.data.threads).isSome)
    (h : tid ∈ l ∨ get_thread_status tid m.store = some "cancelled") :
    get_thread_status tid
      ((l.foldl (fun acc t => cancel_thread now t acc) m)).store = some "cancelled" := by
  induction l generalizing m with
  | nil =>
    rcases h with h | h
    · simp at h
    · exact h
  | cons a l ih =>
    have hpres' : (lookupK tid (cancel_thread now a m).store.data.threads).isSome :=
      cancel_thread_threads_isSome now a tid m hpres
    by_cases ha : tid = a
    · subst ha
      exact ih (cancel_thread now tid m) hpres'
        (Or.inr (cancel_thread_status_self now tid m hpres))
    · rcases h with h | h
      · rcases List.mem_cons.mp h with h | h
        · exact absurd h ha
        · exact ih (cancel_thread now a m) hpres' (Or.inl h)
      · refine ih (cancel_thread now a m) hpres' (Or.inr ?_)
        rw [cancel_thread_status_ne now a tid m (fun hc => ha hc.symm)]
        exact h

theorem foldl_cancel_runs_none (now : Nat) (l : List String) (m : ManagerState)
    (tid : String)
    (h : tid ∈ l ∨ lookupK tid m.store.data.active_runs = none) :
    lookupK tid
      ((l.foldl (fun acc t => cancel_thread now t acc) m)).store.data.active_runs = none := by
  induction l generalizing m with
  | nil =>
    rcases h with h | h
    · simp at h
    · exact h
  | cons a l ih =>
    by_cases ha : tid = a
    · subst ha
      exact ih (cancel_thread now tid m) (Or.inr (cancel_thread_runs_self now tid m))
    · rcases h with h | h
      · rcases List.mem_cons.mp h with h | h
        · exact absurd h ha
        · exact ih (cancel_thread now a m) (Or.inl h)
      · exact ih (cancel_thread now a m)
          (Or.inr (cancel_thread_runs_none_mono now a tid m h))

theorem foldl_cancel_threads_keys (now : Nat) (l : List String) (m : ManagerState) :
    keysOf ((l.foldl (fun acc t => cancel_thread now t acc) m)).store.data.threads =
      keysOf m.store.data.threads := by
  induction l generalizing m with
  | nil => rfl
  | cons a l ih =>
    rw [List.foldl_cons, ih (cancel_thread now a m), cancel_thread_threads_keys]

theorem backoffSeq_le_ten (n : Nat) (b : Nat) (hb : b ≤ 10) :
    ∀ x ∈ backoffSeq b n, x ≤ 10 := by
  induction n generalizing b with
  | zero => simp [backoffSeq]
  | succ n ih =>
    intro x hx
    rw [backoffSeq, List.mem_cons] at hx
    rcases hx with hx | hx
    · exact hx ▸ hb
    · exact ih (min (b * 2) 10) (min_le_right _ _) x hx

theorem backoffSeq_head (n : Nat) (b : Nat) :
    (backoffSeq b (n + 1)).head? = some b := by
  rw [backoffSeq]
  rfl

theorem backoffSeq_chain (n : Nat) (b : Nat) (hb : b ≤ 10) :
    (backoffSeq b n).Chain' (· ≤ ·) := by
  induction n generalizing b with
  | zero => simp [backoffSeq]
  | succ n ih =>
    rw [backoffSeq, List.chain'_cons']
    refine ⟨?_, ih (min (b * 2) 10) (min_le_right _ _)⟩
    intro y hy
    cases n with
    | zero => simp [backoffSeq] at hy
    | succ n =>
      rw [backoffSeq_head] at hy
      obtain rfl : min (b * 2) 10 = y := Option.some_inj.mp hy
      exact le_min (Nat.le_mul_of_pos_right b (by norm_num)) hb

/-- Running the poller over a prefix of non-terminal statuses does not touch
the store; it only accumulates the capped, doubling sleep sequence. -/
theorem poll_nonterminal_lead (now : Nat) (tid : String) (pre : List String)
    (rest : List PollEvent) (b : Nat) (s : StoreState)
    (h : ∀ st ∈ pre, nonTerminalStatus st) :
    poll_run_status now tid (pre.map PollEvent.status ++ rest) b 10 s =
      { poll_run_status now tid rest (iterB b pre.length) 10 s with
          sleeps := backoffSeq b pre.length ++
            (poll_run_status now tid rest (iterB b pre.length) 10 s).sleeps } := by
  induction pre generalizing b with
  | nil => simp [iterB, backoffSeq]
  | cons st pre ih =>
    have hst := h st (List.mem_cons_self st pre)
    obtain ⟨h1, h2, h3⟩ := hst
    have hrec := ih (min (b * 2) 10) (fun x hx => h x (List.mem_cons_of_mem st hx))
    simp only [List.map_cons, List.cons_append, poll_run_status, h1, h2, h3,
      if_false, List.length_cons, iterB, backoffSeq, List.append_eq, hrec,
      List.cons_append]

theorem poll_terminal_single (now : Nat) (tid : String) (t : String) (b : Nat)
    (s : StoreState) (ht : t = "completed" ∨ t = "failed" ∨ t = "cancelled") :
    poll_run_status now tid [PollEvent.status t] b 10 s =
      ⟨(remove_active_run tid (set_thread_status now tid t s)).2, [], .returned⟩ := by
  rcases ht with rfl | rfl | rfl
  · rfl
  · simp [poll_run_status]
  · simp [poll_run_status]

theorem poll_exn_single (now : Nat) (tid : String) (b : Nat) (s : StoreState) :
    poll_run_status now tid [PollEvent.exn] b 10 s =
      ⟨(remove_active_run tid (set_thread_status now tid "error" s)).2, [],
        .returned⟩ := rfl

theorem get_thread_status_remove (k tid : String) (s : StoreState) :
    get_thread_status k (remove_active_run tid s).2 = get_thread_status k s := by
  unfold get_thread_status
  rw [remove_active_run_threads]

theorem mem_get_inactive_threads_isSome (now hours : Nat) (s : StoreState)
    (tid : String) (h : tid ∈ get_inactive_threads now hours s) :
    (lookupK tid s.data.threads).isSome := by
  obtain ⟨p, hp, hfst⟩ := List.mem_map.mp h
  have hmem : p ∈ s.data.threads := (List.mem_filter.mp hp).1
  have hk : tid ∈ keysOf s.data.threads := hfst ▸ List.mem_map_of_mem Prod.fst hmem
  exact (mem_keysOf_iff_lookupK_isSome tid s.data.threads).mp hk

theorem cleanup_data_eq (now hours : Nat) (s : StoreState) :
    (cleanup_inactive_threads now hours s).2.data =
      (get_inactive_threads now hours s).foldl cleanupStep s.data := by
  unfold cleanup_inactive_threads
  by_cases he : (get_inactive_threads now hours s).isEmpty
  · simp [he]
  · simp [he]

theorem cleanup_saveCount (now hours : Nat) (s : StoreState) :
    (cleanup_inactive_threads now hours s).2.saveCount =
      s.saveCount + if (get_inactive_threads now hours s).isEmpty then 0 else 1 := by
  unfold cleanup_inactive_threads
  by_cases he : (get_inactive_threads now hours s).isEmpty
  · simp [he]
  · simp [he, save_data_mem]

/-- C1: for every thread id, after any sequence of runThread and cancelThread
operations the Store's active-run map contains at most one entry for that id,
and runThread supersedes (does not reject): after it, the active-run entry
for the thread is exactly the newly created run. -/
theorem C1_at_most_one_active_run :
    (∀ (ops : List TrackerOp) (tid : String),
      (runTracker ops initialManager).store.data.active_runs.countP
        (fun p => decide (p.1 = tid)) ≤ 1) ∧
    (∀ (m : ManagerState) (now : Nat) (tid aid rid : String),
      lookupK tid (run_thread now tid aid rid m).store.data.active_runs =
        some ⟨rid, now⟩) ∧
    (∀ (m : ManagerState) (now : Nat) (tid aid rid : String) (rr : RunRec),
      lookupK tid m.store.data.active_runs = some rr → tid ∉ m.tasks →
      (run_thread now tid aid rid m).remoteCancels =
        m.remoteCancels ++ [(tid, rr.run_id)]) := by
  refine ⟨?_, ?_, ?_⟩
  · intro ops tid
    have hwf : StoreWF (runTracker ops initialManager).store :=
      storeWF_runTracker ops initialManager storeWF_empty
    exact countP_keys_le_one tid _ hwf.2
  · intro m now tid aid rid
    exact run_thread_runs_self now tid aid rid m
  · intro m now tid aid rid rr hr ht
    exact run_thread_remoteCancels now tid aid rid m rr hr ht

/-- C1 witness: superseding the tracked run `rOld` of `t1` issues a remote
cancel for it and records the new run `rNew`. -/
theorem C1_witness :
    lookupK "t1" mNoTask.store.data.active_runs = some ⟨"rOld", 0⟩ ∧
    "t1" ∉ mNoTask.tasks ∧
    (run_thread 7 "t1" "a2" "rNew" mNoTask).remoteCancels =
      mNoTask.remoteCancels ++ [("t1", "rOld")] ∧
    lookupK "t1" (run_thread 7 "t1" "a2" "rNew" mNoTask).store.data.active_runs =
      some ⟨"rNew", 7⟩ :=
  ⟨by decide, by decide,
    C1_at_most_one_active_run.2.2 mNoTask 7 "t1" "a2" "rNew" ⟨"rOld", 0⟩
      (by decide) (by decide),
    C1_at_most_one_active_run.2.1 mNoTask 7 "t1" "a2" "rNew"⟩

/-- C5: cancelThread removes the active-run entry and leaves the thread with
status `cancelled` whether or not a run existed; on a thread with no active
run it creates no active-run entry (the run map is left unchanged). The
operation is total, so it raises no error. -/
theorem C5_idempotent_cancel (now : Nat) (tid : String) (m : ManagerState)
    (h : (lookupK tid m.store.data.threads).isSome) :
    get_thread_status tid (cancel_thread now tid m).store = some "cancelled" ∧
    lookupK tid (cancel_thread now tid m).store.data.active_runs = none ∧
    (lookupK tid m.store.data.active_runs = none →
      (cancel_thread now tid m).store.data.active_runs = m.store.data.active_runs) :=
  ⟨cancel_thread_status_self now tid m h, cancel_thread_runs_self now tid m,
    fun h0 => cancel_thread_runs_of_none now tid m h0⟩

/-- C5 witness: cancelling the idle thread `t1` marks it `cancelled` and
leaves the empty run map untouched. -/
theorem C5_witness :
    (lookupK "t1" mIdle.store.data.threads).isSome ∧
    (get_thread_status "t1" (cancel_thread 5 "t1" mIdle).store = some "cancelled" ∧
      lookupK "t1" (cancel_thread 5 "t1" mIdle).store.data.active_runs = none ∧
      (lookupK "t1" mIdle.store.data.active_runs = none →
        (cancel_thread 5 "t1" mIdle).store.data.active_runs =
          mIdle.store.data.active_runs)) :=
  ⟨by decide, C5_idempotent_cancel 5 "t1" mIdle (by decide)⟩

/-- C7: Store construction never fails: a missing or unreadable snapshot
yields exactly two empty mappings, and a parsed snapshot becomes the
in-memory state. -/
theorem C7_load_fallback :
    (fileStorage_init .missing).data.threads = [] ∧
    (fileStorage_init .missing).data.active_runs = [] ∧
    (fileStorage_init .unreadable).data.threads = [] ∧
    (fileStorage_init .unreadable).data.active_runs = [] ∧
    (∀ d : StoreData, (fileStorage_init (.parsed d)).data = d) :=
  ⟨rfl, rfl, rfl, rfl, fun _ => rfl⟩

/-- C8: on every save (periodicSave included), a pre-existing primary file is
first copied to the backup; afterwards the primary holds the serialization of
the in-memory state and deserializing it reproduces that state. -/
theorem C8_crash_safe_persistence (fs : FileSys) (s : StoreState) (c : Json)
    (h : fs.primary = some c) :
    (periodic_save_fs fs s).1.backup = some c ∧
    (periodic_save_fs fs s).1.primary = some (encodeStoreData s.data) ∧
    (∀ j, (periodic_save_fs fs s).1.primary = some j →
      decodeStoreData j = some ((periodic_save_fs fs s).2.data)) := by
  refine ⟨?_, ?_, ?_⟩
  · simp [periodic_save_fs, save_data_fs, h]
  · simp [periodic_save_fs, save_data_fs, h]
  · intro j hj
    have h2 : (periodic_save_fs fs s).1.primary = some (encodeStoreData s.data) := by
      simp [periodic_save_fs, save_data_fs, h]
    rw [h2] at hj
    obtain rfl := Option.some_inj.mp hj
    exact decode_encode_storeData s.data

/-- C8 witness: saving `sPoll` over a primary file holding the empty
document backs up the old document and writes a round-trippable snapshot. -/
theorem C8_witness :
    fsPrim.primary = some (encodeStoreData emptyData) ∧
    ((periodic_save_fs fsPrim sPoll).1.backup = some (encodeStoreData emptyData) ∧
      (periodic_save_fs fsPrim sPoll).1.primary =
        some (encodeStoreData sPoll.data) ∧
      (∀ j, (periodic_save_fs fsPrim sPoll).1.primary = some j →
        decodeStoreData j = some ((periodic_save_fs fsPrim sPoll).2.data))) :=
  ⟨rfl, C8_crash_safe_persistence fsPrim sPoll (encodeStoreData emptyData) rfl⟩

/-- C9: addThread is idempotent: on an absent id it creates a `created`
record with the current timestamp and no assistant; on a present id it
leaves the entire store state unchanged, so applying it twice equals
applying it once. -/
theorem C9_add_thread_idempotent (s : StoreState) (now now2 : Nat) (tid : String) :
    (lookupK tid s.data.threads = none →
      lookupK tid (add_thread now tid s).data.threads =
        some ⟨"created", now, none⟩) ∧
    ((lookupK tid s.data.threads).isSome → add_thread now tid s = s) ∧
    add_thread now2 tid (add_thread now tid s) = add_thread now tid s := by
  refine ⟨fun h => add_thread_self_of_none now tid s h,
    fun h => add_thread_of_isSome now tid s h, ?_⟩
  exact add_thread_of_isSome now2 tid _ (add_thread_isSome_self now tid s)

/-- C9 witness: adding `t1` to the empty store creates the `created` record,
and a second add at a later time changes nothing. -/
theorem C9_witness :
    lookupK "t1" emptyStore.data.threads = none ∧
    lookupK "t1" (add_thread 1 "t1" emptyStore).data.threads =
      some ⟨"created", 1, none⟩ ∧
    add_thread 2 "t1" (add_thread 1 "t1" emptyStore) = add_thread 1 "t1" emptyStore :=
  ⟨by decide, (C9_add_thread_idempotent emptyStore 1 2 "t1").1 (by decide),
    (C9_add_thread_idempotent emptyStore 1 2 "t1").2.2⟩

/-- C10: every Store operation preserves the invariant that each key of the
active-run map is also a key of the thread map; it holds along every
operation sequence from the empty store, and addActiveRun on any id (known
or not) establishes the thread record itself. -/
theorem C10_runs_within_threads :
    (∀ (s : StoreState) (op : StoreOp), RunsCovered s.data →
      RunsCovered (applyStoreOp s op).data) ∧
    (∀ ops : List StoreOp, RunsCovered (runStore ops emptyStore).data) ∧
    (∀ (s : StoreState) (now : Nat) (tid rid aid : String),
      lookupK tid (add_active_run now tid rid aid s).data.threads =
        some ⟨"in_progress", now, some aid⟩) := by
  refine ⟨fun s op h => runsCovered_applyStoreOp s op h, ?_, ?_⟩
  · intro ops
    exact runsCovered_runStore ops emptyStore runsCovered_empty
  · intro s now tid rid aid
    exact add_active_run_threads_self now tid rid aid s

/-- C10 witness: adding an active run for an unknown id on the empty store
keeps the invariant. -/
theorem C10_witness :
    RunsCovered emptyStore.data ∧
    RunsCovered (applyStoreOp emptyStore (StoreOp.addActiveRun 3 "t1" "r1" "a1")).data := by
  have h0 : RunsCovered emptyStore.data := by
    intro tid h
    simp [emptyStore, emptyData, lookupK] at h
  exact ⟨h0, C10_runs_within_threads.1 emptyStore (StoreOp.addActiveRun 3 "t1" "r1" "a1") h0⟩

/-- C2: a poller whose remote statuses are non-terminal until a final
terminal status `t` ends with the thread's Store status `t`, no active-run
entry, and a normal return; its sleeps are exactly the doubling sequence
from 1 capped at 10, hence non-decreasing and never above 10. -/
theorem C2_poller_terminal_convergence (now : Nat) (tid : String)
    (pre : List String) (t : String) (s : StoreState)
    (hpre : ∀ st ∈ pre, nonTerminalStatus st)
    (ht : t = "completed" ∨ t = "failed" ∨ t = "cancelled")
    (hreg : (lookupK tid s.data.threads).isSome) :
    get_thread_status tid
      (poll_run_status now tid
        (pre.map PollEvent.status ++ [PollEvent.status t]) 1 10 s).store = some t ∧
    lookupK tid
      (poll_run_status now tid
        (pre.map PollEvent.status ++ [PollEvent.status t]) 1 10 s).store.data.active_runs
      = none ∧
    (poll_run_status now tid
      (pre.map PollEvent.status ++ [PollEvent.status t]) 1 10 s).outcome =
      PollOutcome.returned ∧
    (poll_run_status now tid
      (pre.map PollEvent.status ++ [PollEvent.status t]) 1 10 s).sleeps =
      backoffSeq 1 pre.length ∧
    (poll_run_status now tid
      (pre.map PollEvent.status ++ [PollEvent.status t]) 1 10 s).sleeps.Chain'
      (· ≤ ·) ∧
    (∀ x ∈ (poll_run_status now tid
      (pre.map PollEvent.status ++ [PollEvent.status t]) 1 10 s).sleeps, x ≤ 10) := by
  have hshape :=
    poll_nonterminal_lead now tid pre [PollEvent.status t] 1 s hpre
  have hterm := poll_terminal_single now tid t (iterB 1 pre.length) s ht
  rw [hshape, hterm]
  simp only [List.append_nil]
  refine ⟨?_, ?_, trivial, trivial, ?_, ?_⟩
  · rw [get_thread_status_remove]
    exact get_set_thread_status_self now tid t s hreg
  · exact remove_active_run_self tid _
  · exact backoffSeq_chain pre.length 1 (by norm_num)
  · exact backoffSeq_le_ten pre.length 1 (by norm_num)

/-- C2 witness: polling `queued`, `in_progress`, `completed` on a registered
thread ends `completed` with no active run, sleeping 1 then 2 seconds. -/
theorem C2_witness :
    (∀ st ∈ ["queued", "in_progress"], nonTerminalStatus st) ∧
    (get_thread_status "t1"
      (poll_run_status 9 "t1"
        (["queued", "in_progress"].map PollEvent.status ++
          [PollEvent.status "completed"]) 1 10 sPoll).store = some "completed" ∧
    lookupK "t1"
      (poll_run_status 9 "t1"
        (["queued", "in_progress"].map PollEvent.status ++
          [PollEvent.status "completed"]) 1 10 sPoll).store.data.active_runs = none ∧
    (poll_run_status 9 "t1"
      (["queued", "in_progress"].map PollEvent.status ++
        [PollEvent.status "completed"]) 1 10 sPoll).outcome =
      PollOutcome.returned ∧
    (poll_run_status 9 "t1"
      (["queued", "in_progress"].map PollEvent.status ++
        [PollEvent.status "completed"]) 1 10 sPoll).sleeps =
      backoffSeq 1 (["queued", "in_progress"] : List String).length ∧
    (poll_run_status 9 "t1"
      (["queued", "in_progress"].map PollEvent.status ++
        [PollEvent.status "completed"]) 1 10 sPoll).sleeps.Chain' (· ≤ ·) ∧
    (∀ x ∈ (poll_run_status 9 "t1"
      (["queued", "in_progress"].map PollEvent.status ++
        [PollEvent.status "completed"]) 1 10 sPoll).sleeps, x ≤ 10)) :=
  ⟨by decide,
    C2_poller_terminal_convergence 9 "t1" ["queued", "in_progress"] "completed"
      sPoll (by decide) (by decide) (by decide)⟩

/-- C6: if a poll iteration's remote call raises (not a cancellation), the
poller stores status `error`, removes the active-run entry, and returns
normally: the exception is not propagated and no further poll or sleep
happens after the failure. -/
theorem C6_poller_error_terminal (now : Nat) (tid : String) (pre : List String)
    (s : StoreState)
    (hpre : ∀ st ∈ pre, nonTerminalStatus st)
    (hreg : (lookupK tid s.data.threads).isSome) :
    get_thread_status tid
      (poll_run_status now tid
        (pre.map PollEvent.status ++ [PollEvent.exn]) 1 10 s).store = some "error" ∧
    lookupK tid
      (poll_run_status now tid
        (pre.map PollEvent.status ++ [PollEvent.exn]) 1 10 s).store.data.active_runs
      = none ∧
    (poll_run_status now tid
      (pre.map PollEvent.status ++ [PollEvent.exn]) 1 10 s).outcome =
      PollOutcome.returned ∧
    (poll_run_status now tid
      (pre.map PollEvent.status ++ [PollEvent.exn]) 1 10 s).sleeps =
      backoffSeq 1 pre.length := by
  have hshape := poll_nonterminal_lead now tid pre [PollEvent.exn] 1 s hpre
  rw [hshape, poll_exn_single]
  simp only [List.append_nil]
  refine ⟨?_, ?_, trivial, trivial⟩
  · rw [get_thread_status_remove]
    exact get_set_thread_status_self now tid "error" s hreg
  · exact remove_active_run_self tid _

/-- C6 witness: a poll of `queued` followed by a raising remote call ends
with status `error`, no active run, a normal return, and one sleep. -/
theorem C6_witness :
    (∀ st ∈ ["queued"], nonTerminalStatus st) ∧
    (get_thread_status "t1"
      (poll_run_status 4 "t1"
        (["queued"].map PollEvent.status ++ [PollEvent.exn]) 1 10 sPoll).store =
        some "error" ∧
    lookupK "t1"
      (poll_run_status 4 "t1"
        (["queued"].map PollEvent.status ++
          [PollEvent.exn]) 1 10 sPoll).store.data.active_runs = none ∧
    (poll_run_status 4 "t1"
      (["queued"].map PollEvent.status ++ [PollEvent.exn]) 1 10 sPoll).outcome =
      PollOutcome.returned ∧
    (poll_run_status 4 "t1"
      (["queued"].map PollEvent.status ++ [PollEvent.exn]) 1 10 sPoll).sleeps =
      backoffSeq 1 (["queued"] : List String).length) :=
  ⟨by decide, C6_poller_error_terminal 4 "t1" ["queued"] sPoll (by decide) (by decide)⟩

/-- C3 counterexample: with one thread whose active run is exactly 5 hours
old, `get_inactive_threads 5` reports it although its `last_activity` is not
strictly older than the 5-hour threshold — the source compares with `>=`,
not `>`. -/
theorem C3_counterexample :
    get_inactive_threads 18000 5 sStale = ["a"] ∧
    ¬((5 : Int) * 3600 < (18000 : Int) - (0 : Int)) := by decide

/-- C3 (amended): getInactiveThreads(hours) reports a thread iff it has an
active-run entry and its age is at least `hours` hours (`>=`, not strictly
older); cleanupInactiveThreads removes each reported thread's active-run
entry, sets its status to `cancelled_inactive`, returns the reported ids,
and performs exactly one snapshot save when the batch is nonempty (and none
when it is empty). -/
theorem C3_inactivity_reaping (now hours : Nat) (s : StoreState)
    (hnd : (keysOf s.data.threads).Nodup) :
    (∀ tid, tid ∈ get_inactive_threads now hours s ↔
      ∃ td, lookupK tid s.data.threads = some td ∧
        (lookupK tid s.data.active_runs).isSome ∧
        (hours : Int) * 3600 ≤ (now : Int) - (td.last_activity : Int)) ∧
    (cleanup_inactive_threads now hours s).1 = get_inactive_threads now hours s ∧
    (∀ tid ∈ (cleanup_inactive_threads now hours s).1,
      lookupK tid (cleanup_inactive_threads now hours s).2.data.active_runs = none ∧
      ∃ td, lookupK tid (cleanup_inactive_threads now hours s).2.data.threads =
          some td ∧ td.status = "cancelled_inactive") ∧
    (cleanup_inactive_threads now hours s).2.saveCount =
      s.saveCount +
        if (cleanup_inactive_threads now hours s).1.isEmpty then 0 else 1 := by
  refine ⟨?_, rfl, ?_, cleanup_saveCount now hours s⟩
  · intro tid
    rw [mem_get_inactive_threads now hours s tid hnd]
    constructor
    · rintro ⟨td, h1, h2, h3⟩
      exact ⟨td, h1, h2, of_decide_eq_true h3⟩
    · rintro ⟨td, h1, h2, h3⟩
      exact ⟨td, h1, h2, decide_eq_true h3⟩
  · intro tid hmem
    have hpres : (lookupK tid s.data.threads).isSome :=
      mem_get_inactive_threads_isSome now hours s tid hmem
    constructor
    · rw [cleanup_data_eq]
      exact foldl_cleanupStep_runs_none _ s.data tid (Or.inl hmem)
    · rw [cleanup_data_eq]
      exact foldl_cleanupStep_status _ s.data tid hpres (Or.inl hmem)

/-- C3 witness: the 6-hours-stale thread `a` is reported, its run entry is
cleared, its status becomes `cancelled_inactive`, and one save happens. -/
theorem C3_witness :
    (keysOf sStale.data.threads).Nodup ∧
    ((∀ tid, tid ∈ get_inactive_threads 21600 5 sStale ↔
      ∃ td, lookupK tid sStale.data.threads = some td ∧
        (lookupK tid sStale.data.active_runs).isSome ∧
        (5 : Int) * 3600 ≤ (21600 : Int) - (td.last_activity : Int)) ∧
    (cleanup_inactive_threads 21600 5 sStale).1 =
      get_inactive_threads 21600 5 sStale ∧
    (∀ tid ∈ (cleanup_inactive_threads 21600 5 sStale).1,
      lookupK tid (cleanup_inactive_threads 21600 5 sStale).2.data.active_runs =
        none ∧
      ∃ td, lookupK tid (cleanup_inactive_threads 21600 5 sStale).2.data.threads =
          some td ∧ td.status = "cancelled_inactive") ∧
    (cleanup_inactive_threads 21600 5 sStale).2.saveCount =
      sStale.saveCount +
        if (cleanup_inactive_threads 21600 5 sStale).1.isEmpty then 0 else 1) :=
  ⟨by decide, C3_inactivity_reaping 21600 5 sStale (by decide)⟩

/-- C4 counterexample: the Tracker's periodic cleanup reaps `t1` through the
full cancellation path, so its resulting Store status is `cancelled`, not
`cancelled_inactive`. -/
theorem C4_counterexample :
    (tm_cleanup_inactive_threads 21600 5 mStale).1 = ["t1"] ∧
    get_thread_status "t1" (tm_cleanup_inactive_threads 21600 5 mStale).2.store =
      some "cancelled" ∧
    get_thread_status "t1" (tm_cleanup_inactive_threads 21600 5 mStale).2.store ≠
      some "cancelled_inactive" := by decide

/-- C4 (amended): every thread reaped by the Tracker's
cleanupInactiveThreads ends with Store status `cancelled` (cleanup goes
through the full cancelThread path, which sets `cancelled`; the
`cancelled_inactive` status is set only by the Store-level cleanup, which
the Tracker path does not call); the reaped thread's active-run entry is
removed, and thread records are never deleted (the thread-key set is
unchanged). -/
theorem C4_tracker_cleanup_status (now hours : Nat) (m : ManagerState)
    (tid : String) (h : tid ∈ (tm_cleanup_inactive_threads now hours m).1) :
    get_thread_status tid (tm_cleanup_inactive_threads now hours m).2.store =
      some "cancelled" ∧
    lookupK tid
      (tm_cleanup_inactive_threads now hours m).2.store.data.active_runs = none ∧
    keysOf (tm_cleanup_inactive_threads now hours m).2.store.data.threads =
      keysOf m.store.data.threads := by
  have hpres : (lookupK tid m.store.data.threads).isSome :=
    mem_get_inactive_threads_isSome now hours m.store tid h
  refine ⟨?_, ?_, ?_⟩
  · exact foldl_cancel_status now _ m tid hpres (Or.inl h)
  · exact foldl_cancel_runs_none now _ m tid (Or.inl h)
  · exact foldl_cancel_threads_keys now _ m

/-- C4 witness: reaping the 6-hours-stale `t1` via the Tracker ends with
status `cancelled`, no active run, and the thread record still present. -/
theorem C4_witness :
    "t1" ∈ (tm_cleanup_inactive_threads 21600 5 mStale).1 ∧
    (get_thread_status "t1" (tm_cleanup_inactive_threads 21600 5 mStale).2.store =
      some "cancelled" ∧
    lookupK "t1"
      (tm_cleanup_inactive_threads 21600 5 mStale).2.store.data.active_runs = none ∧
    keysOf (tm_cleanup_inactive_threads 21600 5 mStale).2.store.data.threads =
      keysOf mStale.store.data.threads) :=
  ⟨by decide, C4_tracker_cleanup_status 21600 5 mStale "t1" (by decide)⟩

end CodexTrack
